import Mathlib

/-!
# Verification of the runestick/rune core value runtime

A shallow embedding of the core value and call runtime of the rune
scripting language: the identity hashing scheme (`hash.rs`), the range
primitive (`range.rs`), variant comparison (`variant.rs`), the
host-interop reflection layer (`reflection/string.rs`,
`reflection/option.rs`) and argument packing (`args.rs`).

Machine integers are modelled as `Nat` (unsigned 64-bit, reduced
`% 2 ^ 64` where overflow matters) and `Int` (signed 64-bit payloads,
where no claim exercises wrap-around).
-/

set_option autoImplicit false

namespace Rune

/-! ## Identity layer: 64-bit hashing (`hash.rs`)

`Hash::of`, `Hash::of_type`, `Hash::function`, `Hash::object_keys` feed
bytes into a `twox_hash::XxHash64` hasher built with the default seed 0.
The hasher is modelled at the byte-stream level: a hasher state is the
list of bytes written so far, and `finish` is the one-shot XXH64 of that
stream (streaming XXH64 agrees with the one-shot hash of the
concatenated input).  Byte values are `Nat`s below 256 and all 64-bit
words are `Nat`s reduced modulo `2 ^ 64`. -/

/-- 2^64, the modulus of the 64-bit word arithmetic used by XXH64. -/
def w64 : Nat := 18446744073709551616

/-- 64-bit addition. -/
def add64 (a b : Nat) : Nat := (a + b) % w64

/-- 64-bit multiplication. -/
def mul64 (a b : Nat) : Nat := (a * b) % w64

/-- 64-bit left-rotate of `a` by `r` (for `0 < r < 64` and `a < 2^64`). -/
def rotl64 (a r : Nat) : Nat := ((a <<< r) % w64) ||| (a >>> (64 - r))

/-- XXH64 prime 1. -/
def prime1 : Nat := 11400714785074694791

/-- XXH64 prime 2. -/
def prime2 : Nat := 14029467366897019727

/-- XXH64 prime 3. -/
def prime3 : Nat := 1609587929392839161

/-- XXH64 prime 4. -/
def prime4 : Nat := 9650029242287828579

/-- XXH64 prime 5. -/
def prime5 : Nat := 2870177450012600261

/-- The XXH64 accumulator round: `rotl(acc + lane * P2, 31) * P1`. -/
def xxhRound (acc lane : Nat) : Nat :=
  mul64 (rotl64 (add64 acc (mul64 lane prime2)) 31) prime1

/-- The XXH64 merge round applied to the folded hash and one accumulator. -/
def xxhMergeRound (h v : Nat) : Nat :=
  add64 (mul64 (h ^^^ xxhRound 0 v) prime1) prime4

/-- Little-endian value of a byte list (first byte least significant). -/
def leVal : List Nat → Nat
  | [] => 0
  | b :: rest => b % 256 + 256 * leVal rest

/-- The 8 little-endian bytes of a 64-bit word. -/
def le8 (n : Nat) : List Nat :=
  [n % 256, n / 256 % 256, n / 256 ^ 2 % 256, n / 256 ^ 3 % 256,
   n / 256 ^ 4 % 256, n / 256 ^ 5 % 256, n / 256 ^ 6 % 256, n / 256 ^ 7 % 256]

/-- XXH64 main loop over 32-byte stripes; returns the four accumulators
and the remaining bytes (fewer than 32).  The loop is driven by a fuel
counter (one unit per 32 consumed bytes) so the recursion is structural;
`xxh64` supplies `bs.length` fuel, which is always enough. -/
def xxhStripes (fuel : Nat) (v1 v2 v3 v4 : Nat) (bs : List Nat) :
    (Nat × Nat × Nat × Nat) × List Nat :=
  match fuel with
  | 0 => ((v1, v2, v3, v4), bs)
  | fuel + 1 =>
    if 32 ≤ bs.length then
      xxhStripes fuel
        (xxhRound v1 (leVal (bs.take 8)))
        (xxhRound v2 (leVal ((bs.drop 8).take 8)))
        (xxhRound v3 (leVal ((bs.drop 16).take 8)))
        (xxhRound v4 (leVal ((bs.drop 24).take 8)))
        (bs.drop 32)
    else
      ((v1, v2, v3, v4), bs)

/-- XXH64 tail loop over remaining 8-byte words, fuel-driven like
`xxhStripes`. -/
def xxhTail8 (fuel : Nat) (h : Nat) (bs : List Nat) : Nat × List Nat :=
  match fuel with
  | 0 => (h, bs)
  | fuel + 1 =>
    if 8 ≤ bs.length then
      xxhTail8 fuel
        (add64 (mul64 (rotl64 (h ^^^ xxhRound 0 (leVal (bs.take 8))) 27) prime1) prime4)
        (bs.drop 8)
    else
      (h, bs)

/-- XXH64 tail: one remaining 4-byte word, if any. -/
def xxhTail4 (h : Nat) (bs : List Nat) : Nat × List Nat :=
  if 4 ≤ bs.length then
    (add64 (mul64 (rotl64 (h ^^^ mul64 (leVal (bs.take 4)) prime1) 23) prime2) prime3,
     bs.drop 4)
  else
    (h, bs)

/-- XXH64 tail: the remaining single bytes. -/
def xxhTail1 (h : Nat) : List Nat → Nat
  | [] => h
  | b :: rest => xxhTail1 (mul64 (rotl64 (h ^^^ mul64 (b % 256) prime5) 11) prime1) rest

/-- The XXH64 final avalanche. -/
def xxhAvalanche (h : Nat) : Nat :=
  let h := h ^^^ (h >>> 33)
  let h := mul64 h prime2
  let h := h ^^^ (h >>> 29)
  let h := mul64 h prime3
  h ^^^ (h >>> 32)

/-- One-shot XXH64 of a byte stream with the given seed.  This is the
value `Hasher::finish` returns after the stream has been written. -/
def xxh64 (seed : Nat) (input : List Nat) : Nat :=
  let core :=
    if 32 ≤ input.length then
      let s := xxhStripes input.length
        (add64 seed (add64 prime1 prime2)) (add64 seed prime2) seed
        ((seed + w64 - prime1 % w64) % w64) input
      let h := add64 (add64 (add64 (rotl64 s.1.1 1) (rotl64 s.1.2.1 7))
        (rotl64 s.1.2.2.1 12)) (rotl64 s.1.2.2.2 18)
      let h := xxhMergeRound h s.1.1
      let h := xxhMergeRound h s.1.2.1
      let h := xxhMergeRound h s.1.2.2.1
      (xxhMergeRound h s.1.2.2.2, s.2)
    else
      (add64 seed prime5, input)
  let h := add64 core.1 input.length
  let t8 := xxhTail8 core.2.length h core.2
  let t4 := xxhTail4 t8.1 t8.2
  xxhAvalanche (xxhTail1 t4.1 t4.2)

/-- UTF-8 encoding of one Unicode scalar, as byte values. -/
def utf8Bytes (c : Char) : List Nat :=
  let n := c.toNat
  if n < 128 then [n]
  else if n < 2048 then [192 + n / 64, 128 + n % 64]
  else if n < 65536 then [224 + n / 4096, 128 + n / 64 % 64, 128 + n % 64]
  else [240 + n / 262144, 128 + n / 4096 % 64, 128 + n / 64 % 64, 128 + n % 64]

/-- The UTF-8 bytes of a string. -/
def strBytes (s : String) : List Nat :=
  s.data.foldr (fun c acc => utf8Bytes c ++ acc) []

/-- Rust `usize::hash`: writes the 8 little-endian bytes of the word
(64-bit target) into the hasher state. -/
def hashUsize (st : List Nat) (n : Nat) : List Nat := st ++ le8 n

/-- Rust `str::hash`: writes the UTF-8 bytes followed by the `0xff`
terminator byte into the hasher state. -/
def hashStr (st : List Nat) (s : String) : List Nat := st ++ strBytes s ++ [255]

namespace Hash

/-- `Hash::SEP`, the path-separator word `0x7f`. -/
def SEP : Nat := 127

/-- `Hash::TYPE`, the keyspace tag for types. -/
def TYPE : Nat := 1

/-- `Hash::INSTANCE_FUNCTION` keyspace tag. -/
def INSTANCE_FUNCTION : Nat := 3

/-- `Hash::OBJECT_KEYS` keyspace tag. -/
def OBJECT_KEYS : Nat := 4

/-- `Hash::TUPLE_MATCH` keyspace tag. -/
def TUPLE_MATCH : Nat := 5

/-- `Hash::path(kind, path)`: hash the `kind` word, then each path
segment followed by `SEP`, and finish. -/
def path (kind : Nat) (parts : List String) : Nat :=
  xxh64 0 (parts.foldl (fun st p => hashUsize (hashStr st p) SEP) (hashUsize [] kind))

/-- `Hash::of_type(path)`: `Self::path(Self::TYPE, path)`. -/
def ofType (parts : List String) : Nat := path TYPE parts

/-- `Hash::function(path)`: `Self::path(Self::TYPE, path)`. -/
def function (parts : List String) : Nat := path TYPE parts

/-- `Hash::tuple_match(path)`: `Self::path(Self::TUPLE_MATCH, path)`. -/
def tupleMatch (parts : List String) : Nat := path TUPLE_MATCH parts

/-- `Hash::object_keys(keys)`: hash the `OBJECT_KEYS` word, then each
key prefixed with `SEP`, and finish. -/
def objectKeys (keys : List String) : Nat :=
  xxh64 0 (keys.foldl (fun st k => hashStr (hashUsize st SEP) k) (hashUsize [] OBJECT_KEYS))

end Hash

/-! ## Value layer -/

/-- Type info attached to a value, naming its case.  Modelled from the
spec: `type_info` itself lives in `value.rs`, outside the excerpt; all
the claims need of it is a token identifying the actual case carried
inside `ExpectedType` errors. -/
inductive TypeInfo where
  | unit
  | bool
  | byte
  | char
  | integer
  | float
  | staticString
  | string
  | option
deriving DecidableEq, Repr

/-- Errors raised by the reflection layer: `ExpectedType` carries the
name of the expected host type and the actual case's type info;
`BorrowError` signals a violated borrow rule. -/
inductive ValueError where
  | expectedType (expected : String) (actual : TypeInfo)
  | borrowError
deriving DecidableEq, Repr

/-- A `Shared` cell: the payload together with its dynamic borrow
counters (`shared` immutable borrows outstanding, `exclusive` set while
a mutable borrow is outstanding).  Modelled from the spec: the cell
itself lives in `shared.rs`, outside the excerpt; the borrow protocol
follows spec section 4.2. -/
structure SharedCell (α : Type) where
  value : α
  shared : Nat
  exclusive : Bool
deriving DecidableEq, Repr

namespace SharedCell

/-- `Shared::new`: a fresh cell with no outstanding borrows. -/
def new {α : Type} (v : α) : SharedCell α := ⟨v, 0, false⟩

/-- `borrow_ref()?.clone()`: a scoped immutable borrow released as soon
as the clone is taken — succeeds unless an exclusive borrow is
outstanding, and leaves the cell unchanged. -/
def borrowRefClone {α : Type} (c : SharedCell α) : Except ValueError α :=
  if c.exclusive then .error .borrowError else .ok c.value

/-- `owned_ref()`: an immutable borrow held by a guard.  On success the
cell records one more shared borrow; the returned cell is the state the
guard keeps alive. -/
def ownedRef {α : Type} (c : SharedCell α) : Except ValueError (α × SharedCell α) :=
  if c.exclusive then .error .borrowError
  else .ok (c.value, { c with shared := c.shared + 1 })

/-- `owned_mut()`: an exclusive borrow held by a guard.  Succeeds only
when no borrow of either kind is outstanding. -/
def ownedMut {α : Type} (c : SharedCell α) : Except ValueError (α × SharedCell α) :=
  if c.shared == 0 && !c.exclusive then
    .ok (c.value, { c with exclusive := true })
  else .error .borrowError

/-- `take()`: move the payload out; requires no outstanding borrows. -/
def take {α : Type} (c : SharedCell α) : Except ValueError α :=
  if c.shared == 0 && !c.exclusive then .ok c.value else .error .borrowError

/-- Dropping a `RawOwnedRef` guard: the shared borrow it held is
released. -/
def releaseRef {α : Type} (c : SharedCell α) : SharedCell α :=
  { c with shared := c.shared - 1 }

/-- Dropping a `RawOwnedMut` guard: the exclusive borrow it held is
released. -/
def releaseMut {α : Type} (c : SharedCell α) : SharedCell α :=
  { c with exclusive := false }

end SharedCell

/-- The runtime value.  Modelled from the spec: the `Value` tagged union
lives in `value.rs`, outside the excerpt; spec section 3 lists its
cases.  Only the cases the claims exercise are carried here (the
composite cases not reached by any claim are omitted); a `Float` payload
is carried as its IEEE-754 bit pattern, which no claim inspects. -/
inductive Value where
  | unit
  | bool (b : Bool)
  | byte (b : Nat)
  | char (c : Char)
  | integer (i : Int)
  | float (bits : Nat)
  | staticString (s : String)
  | string (cell : SharedCell String)
  | option (cell : SharedCell (Option Value))

/-- `Value::type_info` restricted to the modelled cases (modelled from
the spec, see `TypeInfo`). -/
def Value.typeInfo : Value → TypeInfo
  | .unit => .unit
  | .bool _ => .bool
  | .byte _ => .byte
  | .char _ => .char
  | .integer _ => .integer
  | .float _ => .float
  | .staticString _ => .staticString
  | .string _ => .string
  | .option _ => .option

/-! ## Range (`range.rs`) -/

/-- A VM-level panic, from `Panic::custom(msg)`. -/
structure Panic where
  msg : String
deriving DecidableEq, Repr

/-- `Panic::custom`. -/
def Panic.custom (msg : String) : Panic := ⟨msg⟩

/-- `RangeLimits`: a half-open `..` or closed `..=` range. -/
inductive RangeLimits where
  | halfOpen
  | closed
deriving DecidableEq, Repr

/-- `Range { start, end, limits }`.  The Rust field `end` is named
`stop` because `end` is a Lean keyword. -/
structure Range where
  start : Option Value
  stop : Option Value
  limits : RangeLimits

/-- The iterators `Range::into_iterator` can build, by the constructor
call in the source: `Iterator::from_double_ended(name, start..end)`,
`Iterator::from_double_ended(name, start..=end)` and
`Iterator::from(name, start..)`. -/
inductive RtIterator where
  | doubleEndedRange (name : String) (start stop : Int)
  | doubleEndedRangeInclusive (name : String) (start stop : Int)
  | rangeFrom (name : String) (start : Int)
deriving DecidableEq

/-- `Range::into_iterator`, matching `(limits, start, end)` exactly as
the source does: the first two arms require `HalfOpen` resp. `Closed`
limits with integer start and end; the third arm requires integer start
and `None` end with the limits a wildcard; everything else panics with
"not an iterator". -/
def Range.intoIterator (r : Range) : Except Panic RtIterator :=
  match r.limits, r.start, r.stop with
  | .halfOpen, some (.integer s), some (.integer e) =>
      .ok (.doubleEndedRange "std::ops::Range" s e)
  | .closed, some (.integer s), some (.integer e) =>
      .ok (.doubleEndedRangeInclusive "std::ops::RangeToInclusive" s e)
  | _, some (.integer s), none =>
      .ok (.rangeFrom "std::ops::RangeFrom" s)
  | _, _, _ => .error (Panic.custom "not an iterator")

/-- The shapes on which `Range::into_iterator` succeeds: integer start
and end, or integer start and no end (this is the amended shape set —
the third source arm leaves the limits unconstrained). -/
def Range.iterableShape (r : Range) : Prop :=
  (∃ s e : Int, r.start = some (.integer s) ∧ r.stop = some (.integer e)) ∨
  (∃ s : Int, r.start = some (.integer s) ∧ r.stop = none)

/-! ## String reflection (`reflection/string.rs`)

The by-reference conversions return `(raw_pointer, guard)`.  The raw
pointer is modelled by the text it points at; a `RawOwnedRef` /
`RawOwnedMut` guard is modelled by the cell state whose borrow it keeps
alive (dropping the guard is `SharedCell.releaseRef` /
`SharedCell.releaseMut` on that state). -/

/-- `String::from_value`: clones the text out of the `Shared` cell for
`Value::String`, clones the interned string for `Value::StaticString`,
and is `ExpectedType(actual)` on every other case. -/
def stringFromValue : Value → Except ValueError String
  | .string cell => cell.borrowRefClone
  | .staticString s => .ok s
  | v => .error (.expectedType "String" v.typeInfo)

/-- `<&str as UnsafeFromValue>::from_value`: for `Value::String` an
owned shared borrow is taken and kept by a `Some` guard; for
`Value::StaticString` the pointer aims at the interned buffer and the
guard slot is `None`. -/
def strUnsafeFromValue : Value → Except ValueError (String × Option (SharedCell String))
  | .string cell => do
      let (s, g) ← cell.ownedRef
      .ok (s, some g)
  | .staticString s => .ok (s, none)
  | v => .error (.expectedType "String" v.typeInfo)

/-- `<&String as UnsafeFromValue>::from_value`: same acceptance set as
`&str` — `Value::String` under an owned shared borrow, or the interned
buffer of a `Value::StaticString` with an empty guard slot. -/
def refStringUnsafeFromValue : Value → Except ValueError (String × Option (SharedCell String))
  | .string cell => do
      let (s, g) ← cell.ownedRef
      .ok (s, some g)
  | .staticString s => .ok (s, none)
  | v => .error (.expectedType "String" v.typeInfo)

/-- `<&mut str as UnsafeFromValue>::from_value`: only `Value::String` is
accepted, under an owned exclusive borrow; there is no `StaticString`
arm, so a static string falls to the `ExpectedType` case. -/
def mutStrUnsafeFromValue : Value → Except ValueError (String × Option (SharedCell String))
  | .string cell => do
      let (s, g) ← cell.ownedMut
      .ok (s, some g)
  | v => .error (.expectedType "String" v.typeInfo)

/-- `<&mut String as UnsafeFromValue>::from_value`: only `Value::String`
is accepted, under an owned exclusive borrow (the guard slot here is not
optional in the source: `type Guard = RawOwnedMut`). -/
def mutStringUnsafeFromValue : Value → Except ValueError (String × SharedCell String)
  | .string cell => cell.ownedMut
  | v => .error (.expectedType "String" v.typeInfo)

/-! ## Option reflection (`reflection/option.rs`) -/

/-- Modelled from the spec: `String::to_value` (outside the excerpt)
converts a host string into a freshly allocated `Shared` cell behind the
`String` case. -/
def stringToValue (s : String) : Value := .string (SharedCell.new s)

/-- Modelled from the spec: `Value::into_option` (in `value.rs`, outside
the excerpt) yields the `Shared` cell of an `Option` case and is an
`ExpectedType` failure on every other case. -/
def Value.intoOption : Value → Except ValueError (SharedCell (Option Value))
  | .option cell => .ok cell
  | v => .error (.expectedType "Option" v.typeInfo)

/-- `<Option<String> as ToValue>::to_value`: converts the inner string
when present, then wraps the converted option in a fresh `Shared`
cell. -/
def optionStringToValue : Option String → Except ValueError Value
  | some s => .ok (.option (SharedCell.new (some (stringToValue s))))
  | none => .ok (.option (SharedCell.new none))

/-- `<Option<String> as FromValue>::from_value`:
`value.into_option()?.take()?`, then the inner conversion on `Some`. -/
def optionStringFromValue (v : Value) : Except ValueError (Option String) := do
  let cell ← v.intoOption
  match ← cell.take with
  | some inner => do
      let s ← stringFromValue inner
      .ok (some s)
  | none => .ok none

/-! ## Variant comparison (`rune/src/runtime/variant.rs`)

The modern `rune` runtime excerpt: `VmResult<T>` is `Ok(T)` or a
`VmError`; the only error the claims reach is the panic raised on a
payload-shape mismatch.  The element type of payloads is kept as a
parameter `V`, and the protocol-caller indirection is modelled — exactly
as the source does — by the comparison function passed down to the
`Vec` helpers. -/

/-- A VM error; `VmResult::panic(msg)` produces the `panic` case. -/
inductive VmError where
  | panic (msg : String)
deriving DecidableEq, Repr

/-- `VmResult<α>`. -/
abbrev VmResult (α : Type) : Type := Except VmError α

/-- `VariantRtti`: the enclosing enum's hash, the variant's own hash,
its qualified item path and its field names. -/
structure VariantRtti where
  enumHash : Nat
  hash : Nat
  item : String
  fields : List String
deriving DecidableEq, Repr

/-- `VariantData`: an `Empty`, `Struct` or `Tuple` payload.  Both
sequence payloads are carried as lists of `V`. -/
inductive VariantData (V : Type) where
  | empty
  | struct (data : List V)
  | tuple (data : List V)
deriving DecidableEq, Repr

/-- The discriminator of a `VariantData` payload. -/
def VariantData.discriminant {V : Type} : VariantData V → Nat
  | .empty => 0
  | .struct _ => 1
  | .tuple _ => 2

/-- `Variant { rtti, data }`. -/
structure Variant (V : Type) where
  rtti : VariantRtti
  data : VariantData V

/-- `u64::cmp`, plain integer comparison. -/
def cmpU64 (m n : Nat) : Ordering :=
  if m < n then .lt else if m = n then .eq else .gt

/-- Modelled from the spec: the element loop of `Vec::eq_with` (in
`runtime/vec.rs`, outside the excerpt) — positional comparison that
stops at the first unequal pair. -/
def vecEqWithAux {V : Type} (f : V → V → VmResult Bool) : List V → List V → VmResult Bool
  | x :: xs, y :: ys => do
      let r ← f x y
      if r then vecEqWithAux f xs ys else .ok false
  | _, _ => .ok true

/-- Modelled from the spec: `Vec::eq_with` (in `runtime/vec.rs`, outside
the excerpt) — unequal lengths are unequal, otherwise element-wise. -/
def vecEqWith {V : Type} (f : V → V → VmResult Bool) (a b : List V) : VmResult Bool :=
  if a.length == b.length then vecEqWithAux f a b else .ok false

/-- Modelled from the spec: `Vec::partial_cmp_with` (outside the
excerpt) — lexicographic positional comparison, lengths break ties. -/
def vecPartialCmpWith {V : Type} (f : V → V → VmResult (Option Ordering)) :
    List V → List V → VmResult (Option Ordering)
  | x :: xs, y :: ys => do
      match ← f x y with
      | some .eq => vecPartialCmpWith f xs ys
      | o => .ok o
  | a, b => .ok (some (cmpU64 a.length b.length))

/-- Modelled from the spec: `Vec::cmp_with` (outside the excerpt) —
lexicographic positional comparison, lengths break ties. -/
def vecCmpWith {V : Type} (f : V → V → VmResult Ordering) :
    List V → List V → VmResult Ordering
  | x :: xs, y :: ys => do
      match ← f x y with
      | .eq => vecCmpWith f xs ys
      | o => .ok o
  | a, b => .ok (cmpU64 a.length b.length)

/-- `Variant::partial_eq_with`: unequal variant hashes are unequal;
matching payload shapes compare element-wise; a shape mismatch panics
with "data mismatch between variants". -/
def variantPartialEqWith {V : Type} (f : V → V → VmResult Bool) (a b : Variant V) :
    VmResult Bool :=
  if a.rtti.hash ≠ b.rtti.hash then .ok false
  else
    match a.data, b.data with
    | .empty, .empty => .ok true
    | .tuple x, .tuple y => vecEqWith f x y
    | .struct x, .struct y => vecEqWith f x y
    | _, _ => .error (.panic "data mismatch between variants")

/-- `Variant::eq_with`: same structure as `partial_eq_with`, with the
total-equality protocol function passed to the element loop. -/
def variantEqWith {V : Type} (f : V → V → VmResult Bool) (a b : Variant V) :
    VmResult Bool :=
  if a.rtti.hash ≠ b.rtti.hash then .ok false
  else
    match a.data, b.data with
    | .empty, .empty => .ok true
    | .tuple x, .tuple y => vecEqWith f x y
    | .struct x, .struct y => vecEqWith f x y
    | _, _ => .error (.panic "data mismatch between variants")

/-- `Variant::partial_cmp_with`: unequal variant hashes are ordered by
hash (`u64::partial_cmp` is always `Some`); matching payload shapes
compare element-wise; a shape mismatch panics. -/
def variantPartialCmpWith {V : Type} (f : V → V → VmResult (Option Ordering))
    (a b : Variant V) : VmResult (Option Ordering) :=
  match cmpU64 a.rtti.hash b.rtti.hash with
  | .eq =>
      match a.data, b.data with
      | .empty, .empty => .ok (some .eq)
      | .tuple x, .tuple y => vecPartialCmpWith f x y
      | .struct x, .struct y => vecPartialCmpWith f x y
      | _, _ => .error (.panic "data mismatch between variants")
  | o => .ok (some o)

/-- `Variant::cmp_with`: unequal variant hashes are ordered by hash;
matching payload shapes compare element-wise; a shape mismatch
panics. -/
def variantCmpWith {V : Type} (f : V → V → VmResult Ordering)
    (a b : Variant V) : VmResult Ordering :=
  match cmpU64 a.rtti.hash b.rtti.hash with
  | .eq =>
      match a.data, b.data with
      | .empty, .empty => .ok .eq
      | .tuple x, .tuple y => vecCmpWith f x y
      | .struct x, .struct y => vecCmpWith f x y
      | _, _ => .error (.panic "data mismatch between variants")
  | o => .ok o

/-! ## Argument packing (`args.rs`)

The `impl_into_args!` macro generates, for every tuple arity the
`repeat_macro!` list covers (0 through 16 per the spec), an `Args` impl
whose `into_stack` pushes each component's converted value in positional
order, whose `into_vec` converts each component in positional order into
a vector, and whose `count` is the arity.  The generated body is
uniform in the arity, so the family of impls is modelled once over a
positional list of host arguments together with their `ToValue`
conversion. -/

/-- `Args::into_stack`: convert each argument in positional order and
push it onto the operand stack (the stack grows at the end of the
list). -/
def argsIntoStack {H E : Type} (tv : H → Except E Value) :
    List H → List Value → Except E (List Value)
  | [], stack => .ok stack
  | a :: rest, stack => do
      let v ← tv a
      argsIntoStack tv rest (stack ++ [v])

/-- `Args::into_vec`: convert each argument in positional order and
collect the results. -/
def argsIntoVec {H E : Type} (tv : H → Except E Value) : List H → Except E (List Value)
  | [] => .ok []
  | a :: rest => do
      let v ← tv a
      let vs ← argsIntoVec tv rest
      .ok (v :: vs)

/-- `Args::count`: the tuple arity. -/
def argsCount {H : Type} (args : List H) : Nat := args.length

/-! ## Helper lemmas -/

/-- Binding a successful `Except` computation applies the
continuation. -/
theorem exceptBind_ok {E α β : Type} (a : α) (k : α → Except E β) :
    (Except.ok (ε := E) a >>= k) = k a := rfl

/-- `cmpU64` on equal words is `eq`. -/
theorem cmpU64_self (m : Nat) : cmpU64 m m = .eq := by
  simp [cmpU64]

/-- `cmpU64` on unequal words is not `eq`. -/
theorem cmpU64_ne {m n : Nat} (h : m ≠ n) : cmpU64 m n ≠ .eq := by
  unfold cmpU64
  split_ifs <;> simp_all

/-- With pure structural equality as the element protocol, the
element loop of `Vec::eq_with` decides list equality on equal-length
lists. -/
theorem vecEqWithAux_pure_eq {V : Type} [DecidableEq V] (x y : List V)
    (h : x.length = y.length) :
    vecEqWithAux (fun a b => .ok (decide (a = b))) x y = .ok true ↔ x = y := by
  induction x generalizing y with
  | nil =>
    cases y with
    | nil => simp [vecEqWithAux]
    | cons b ys => simp at h
  | cons a xs ih =>
    cases y with
    | nil => simp at h
    | cons b ys =>
      simp only [List.length_cons, Nat.add_right_cancel_iff] at h
      have hstep : vecEqWithAux (fun a b => Except.ok (decide (a = b))) (a :: xs) (b :: ys) =
          if a = b then vecEqWithAux (fun a b => Except.ok (decide (a = b))) xs ys
          else .ok false := by
        by_cases hab : a = b <;> simp [vecEqWithAux, exceptBind_ok, hab]
      rw [hstep]
      by_cases hab : a = b
      · subst hab
        rw [if_pos rfl, ih ys h]
        simp
      · rw [if_neg hab]
        simp [hab]

/-- With pure structural equality as the element protocol,
`Vec::eq_with` decides list equality. -/
theorem vecEqWith_pure_eq {V : Type} [DecidableEq V] (x y : List V) :
    vecEqWith (fun a b => .ok (decide (a = b))) x y = .ok true ↔ x = y := by
  unfold vecEqWith
  by_cases h : x.length = y.length
  · simp only [h, beq_self_eq_true, if_true]
    exact vecEqWithAux_pure_eq x y h
  · have : (x.length == y.length) = false := by simp [h]
    simp only [this, Bool.false_eq_true, if_false]
    constructor
    · intro hc; cases hc
    · intro hxy; exact absurd (by rw [hxy]) h

/-! ## Claim theorems -/

/-- C4: `Hash::of_type(p) = Hash::function(p)` for every path `p` —
both are `Hash::path(TYPE, p)`, hashing the `TYPE` tag followed by each
segment and separator. -/
theorem hash_of_type_eq_function : ∀ p : List String, Hash.ofType p = Hash.function p :=
  fun _ => rfl

set_option maxRecDepth 4000 in
/-- C8: `Hash::object_keys` is order-sensitive —
`object_keys(["a","b"])` and `object_keys(["b","a"])` differ — and
deterministic: the hash is a function of the key sequence alone. -/
theorem hash_object_keys_order_sensitive :
    ((Hash.objectKeys ["a", "b"] == Hash.objectKeys ["b", "a"]) = false) ∧
    (∀ ks : List String, Hash.objectKeys ks = Hash.objectKeys ks) :=
  ⟨by decide, fun _ => rfl⟩

/-- C6: a host `Option<String>` converted with `Option::to_value` and
read back with `Option::<String>::from_value` yields the original value:
the string for `Some`, `None` for `None`. -/
theorem option_string_round_trip :
    ∀ x : Option String, (optionStringToValue x).bind optionStringFromValue = .ok x := by
  intro x
  cases x <;> rfl

/-- C1 counterexample: a `Closed` range with integer start and no end is
accepted by `Range::into_iterator` — the third source arm leaves the
limits unconstrained — where the claim requires every shape outside its
three patterns to fail with `Panic("not an iterator")`. -/
theorem range_closed_unbounded_is_iterator :
    Range.intoIterator ⟨some (.integer 0), none, .closed⟩ =
      .ok (.rangeFrom "std::ops::RangeFrom" 0) := rfl

/-- C1 (amended): `Range::into_iterator` succeeds exactly on integer
start/end pairs (half-open and closed each building their double-ended
iterator) and on integer start with no end under either limits value
(the forward-only unbounded iterator); every other shape fails with
`Panic("not an iterator")`. -/
theorem range_into_iterator_shapes (r : Range) :
    ((∃ it, r.intoIterator = .ok it) ↔ r.iterableShape) ∧
    (∀ s e : Int, r.start = some (.integer s) → r.stop = some (.integer e) →
      r.intoIterator = .ok (if r.limits = .halfOpen then
        .doubleEndedRange "std::ops::Range" s e
      else .doubleEndedRangeInclusive "std::ops::RangeToInclusive" s e)) ∧
    (∀ s : Int, r.start = some (.integer s) → r.stop = none →
      r.intoIterator = .ok (.rangeFrom "std::ops::RangeFrom" s)) ∧
    (¬ r.iterableShape → r.intoIterator = .error (Panic.custom "not an iterator")) := by
  obtain ⟨st, en, lim⟩ := r
  rcases st with _ | sv <;> rcases en with _ | ev <;> cases lim <;>
    first
      | (cases sv <;> cases ev <;> simp [Range.intoIterator, Range.iterableShape])
      | (cases sv <;> simp [Range.intoIterator, Range.iterableShape])
      | (cases ev <;> simp [Range.intoIterator, Range.iterableShape])
      | simp [Range.intoIterator, Range.iterableShape]

/-- C1 witness: the fully unbounded range `..` is not an iterator. -/
theorem range_into_iterator_shapes_witness :
    Range.intoIterator ⟨none, none, .halfOpen⟩ =
      .error (Panic.custom "not an iterator") :=
  (range_into_iterator_shapes ⟨none, none, .halfOpen⟩).2.2.2 (by
    simp [Range.iterableShape])

/-- C7 counterexample: `String::from_value` on a `Value::StaticString`
succeeds (cloning the interned string) where the claim requires a
failure with `ExpectedType` for every tag other than `String`. -/
theorem string_from_value_static_string_accepted :
    stringFromValue (.staticString "a") = .ok "a" := rfl

/-- C7 (amended): `String::from_value` clones the text out of the
`Shared` cell for the `String` tag (leaving the cell unchanged), clones
the interned string for the `StaticString` tag, and fails with
`ExpectedType(actual)` on every other tag, never silently coercing any
other case. -/
theorem string_from_value_cases (cell : SharedCell String) (s : String) (v : Value)
    (hex : cell.exclusive = false)
    (hstr : ∀ c, v ≠ .string c) (hstat : ∀ t, v ≠ .staticString t) :
    stringFromValue (.string cell) = .ok cell.value ∧
    stringFromValue (.staticString s) = .ok s ∧
    stringFromValue v = .error (.expectedType "String" v.typeInfo) := by
  refine ⟨?_, rfl, ?_⟩
  · simp [stringFromValue, SharedCell.borrowRefClone, hex]
  · cases v <;> simp_all [stringFromValue, Value.typeInfo]

/-- C7 witness: the in-cell clone at `"x"` and the `ExpectedType`
failure at `Unit`. -/
theorem string_from_value_cases_witness :
    stringFromValue (.string (SharedCell.new "x")) = .ok "x" ∧
    stringFromValue .unit = .error (.expectedType "String" TypeInfo.unit) := by
  have h := string_from_value_cases (SharedCell.new "x") "y" .unit rfl
    (fun c hc => Value.noConfusion hc) (fun t ht => Value.noConfusion ht)
  exact ⟨h.1, h.2.2⟩

/-- C9: `&str` obtained through `UnsafeFromValue` from a
`Value::StaticString` carries an empty guard slot and touches no cell,
while from a `Value::String` it takes the cell's shared borrow, holds it
in a `Some` guard, and dropping the guard restores the cell's original
borrow state. -/
theorem str_unsafe_from_value_guards (s : String) (cell : SharedCell String)
    (hex : cell.exclusive = false) :
    strUnsafeFromValue (.staticString s) = .ok (s, none) ∧
    strUnsafeFromValue (.string cell) =
      .ok (cell.value, some { cell with shared := cell.shared + 1 }) ∧
    SharedCell.releaseRef { cell with shared := cell.shared + 1 } = cell := by
  refine ⟨rfl, ?_, ?_⟩
  · simp [strUnsafeFromValue, SharedCell.ownedRef, hex, exceptBind_ok]
  · simp [SharedCell.releaseRef]

/-- C9 witness: concrete static and cell-backed strings. -/
theorem str_unsafe_from_value_guards_witness :
    strUnsafeFromValue (.staticString "a") = .ok ("a", none) ∧
    strUnsafeFromValue (.string (SharedCell.new "b")) =
      .ok ("b", some ⟨"b", 1, false⟩) :=
  have h := str_unsafe_from_value_guards "a" (SharedCell.new "b") rfl
  ⟨h.1, h.2.1⟩

/-- C10: the mutable text loans (`&mut str`, `&mut String`) reject
`Value::StaticString` with `ExpectedType` and take the exclusive borrow
of a `Value::String` cell, while the immutable conversions (`&str`,
`&String`, `String` by value) all accept the `StaticString` case. -/
theorem mutable_text_loans (s : String) (cell : SharedCell String)
    (hsh : cell.shared = 0) (hex : cell.exclusive = false) :
    mutStrUnsafeFromValue (.staticString s) =
      .error (.expectedType "String" .staticString) ∧
    mutStringUnsafeFromValue (.staticString s) =
      .error (.expectedType "String" .staticString) ∧
    mutStrUnsafeFromValue (.string cell) =
      .ok (cell.value, some { cell with exclusive := true }) ∧
    mutStringUnsafeFromValue (.string cell) =
      .ok (cell.value, { cell with exclusive := true }) ∧
    strUnsafeFromValue (.staticString s) = .ok (s, none) ∧
    refStringUnsafeFromValue (.staticString s) = .ok (s, none) ∧
    stringFromValue (.staticString s) = .ok s := by
  refine ⟨rfl, rfl, ?_, ?_, rfl, rfl, rfl⟩ <;>
    simp [mutStrUnsafeFromValue, mutStringUnsafeFromValue, SharedCell.ownedMut,
      hsh, hex, exceptBind_ok]

/-- C2: for variants of the same enum, `partial_eq_with` under the pure
structural element protocol is true exactly when the variant hashes
match and the payloads are structurally equal (element-wise for tuples,
in declared field order for structs, trivially for `Empty`); and when
the hashes differ, `cmp_with` orders the variants by hash. -/
theorem variant_partial_eq_iff_and_cmp_by_hash {V : Type} [DecidableEq V]
    (a b : Variant V) (henum : a.rtti.enumHash = b.rtti.enumHash) :
    (variantPartialEqWith (fun x y => .ok (decide (x = y))) a b = .ok true ↔
      (a.rtti.hash = b.rtti.hash ∧ a.data = b.data)) ∧
    (∀ f : V → V → VmResult Ordering, a.rtti.hash ≠ b.rtti.hash →
      variantCmpWith f a b = .ok (cmpU64 a.rtti.hash b.rtti.hash)) := by
  constructor
  · by_cases hh : a.rtti.hash = b.rtti.hash
    · cases hda : a.data <;> cases hdb : b.data <;>
        simp [variantPartialEqWith, hh, hda, hdb, vecEqWith_pure_eq]
    · simp [variantPartialEqWith, hh]
  · intro f hne
    rcases hc : cmpU64 a.rtti.hash b.rtti.hash with _ | _ | _
    · simp [variantCmpWith, hc]
    · exact absurd hc (cmpU64_ne hne)
    · simp [variantCmpWith, hc]

/-- C2 witness: equal tuple variants compare equal; variants with hashes
1 and 2 are ordered `lt` by `cmp_with`. -/
theorem variant_partial_eq_iff_and_cmp_by_hash_witness :
    variantPartialEqWith (V := Int) (fun x y => .ok (decide (x = y)))
      ⟨⟨7, 1, "E::B", []⟩, .tuple [1]⟩ ⟨⟨7, 1, "E::B", []⟩, .tuple [1]⟩ = .ok true ∧
    variantCmpWith (V := Int) (fun _ _ => .ok .eq)
      ⟨⟨7, 1, "E::B", []⟩, .tuple [1]⟩ ⟨⟨7, 2, "E::C", ["x"]⟩, .struct [1]⟩ =
        .ok .lt := by
  constructor
  · exact (variant_partial_eq_iff_and_cmp_by_hash
      ⟨⟨7, 1, "E::B", []⟩, .tuple [1]⟩ ⟨⟨7, 1, "E::B", []⟩, .tuple [1]⟩ rfl).1.mpr
      ⟨rfl, rfl⟩
  · have h := (variant_partial_eq_iff_and_cmp_by_hash (V := Int)
      ⟨⟨7, 1, "E::B", []⟩, .tuple [1]⟩ ⟨⟨7, 2, "E::C", ["x"]⟩, .struct [1]⟩ rfl).2
      (fun _ _ => .ok .eq) (by decide)
    simpa [cmpU64] using h

/-- C3: two variants with equal `rtti.hash` but different payload
discriminators make each of `partial_eq_with`, `eq_with`,
`partial_cmp_with` and `cmp_with` fail with the VM panic "data mismatch
between variants". -/
theorem variant_shape_mismatch_panics {V : Type}
    (f g : V → V → VmResult Bool) (p : V → V → VmResult (Option Ordering))
    (c : V → V → VmResult Ordering) (a b : Variant V)
    (hh : a.rtti.hash = b.rtti.hash)
    (hd : a.data.discriminant ≠ b.data.discriminant) :
    variantPartialEqWith f a b = .error (.panic "data mismatch between variants") ∧
    variantEqWith g a b = .error (.panic "data mismatch between variants") ∧
    variantPartialCmpWith p a b = .error (.panic "data mismatch between variants") ∧
    variantCmpWith c a b = .error (.panic "data mismatch between variants") := by
  have hceq : cmpU64 a.rtti.hash b.rtti.hash = .eq := by simp [cmpU64, hh]
  cases hda : a.data <;> cases hdb : b.data <;>
    simp_all [variantPartialEqWith, variantEqWith, variantPartialCmpWith,
      variantCmpWith, VariantData.discriminant]

/-- C3 witness: an `Empty` and a `Tuple` variant with the same hash. -/
theorem variant_shape_mismatch_panics_witness :
    variantPartialEqWith (V := Int) (fun _ _ => .ok true)
      ⟨⟨7, 1, "E::A", []⟩, .empty⟩ ⟨⟨7, 1, "E::B", []⟩, .tuple [1]⟩ =
        .error (.panic "data mismatch between variants") ∧
    variantCmpWith (V := Int) (fun _ _ => .ok .eq)
      ⟨⟨7, 1, "E::A", []⟩, .empty⟩ ⟨⟨7, 1, "E::B", []⟩, .tuple [1]⟩ =
        .error (.panic "data mismatch between variants") :=
  have h := variant_shape_mismatch_panics (fun _ _ => .ok true) (fun _ _ => .ok true)
    (fun _ _ => .ok (some .eq)) (fun _ _ => .ok .eq)
    ⟨⟨7, 1, "E::A", []⟩, .empty⟩ ⟨⟨7, 1, "E::B", []⟩, .tuple [1]⟩ rfl (by decide)
  ⟨h.1, h.2.2.2⟩

/-- C5: when every component conversion succeeds, the `Args` impl for a
tuple of arity `count` (the macro covers arities 0 through 16) converts
the components in positional order: `into_vec` returns them as a vector
of length `count`, and `into_stack` pushes them onto the stack in the
same positional order, first component first. -/
theorem args_pack_order_and_count {H E : Type} (tv : H → Except E Value) (f : H → Value)
    (hconv : ∀ a, tv a = .ok (f a)) (args : List H) (har : argsCount args ≤ 16)
    (stack : List Value) :
    argsCount args = args.length ∧
    argsIntoVec tv args = .ok (args.map f) ∧
    (args.map f).length = args.length ∧
    argsIntoStack tv args stack = .ok (stack ++ args.map f) := by
  refine ⟨rfl, ?_, by simp, ?_⟩
  · clear har
    induction args with
    | nil => rfl
    | cons a rest ih => simp [argsIntoVec, hconv, exceptBind_ok, ih]
  · clear har
    induction args generalizing stack with
    | nil => simp [argsIntoStack]
    | cons a rest ih => simp [argsIntoStack, hconv, exceptBind_ok, ih]

/-- C5 witness: the pair `(1, 2)` of host integers packs to two values
in positional order. -/
theorem args_pack_order_and_count_witness :
    argsIntoVec (E := ValueError) (fun i : Int => .ok (.integer i)) [1, 2] =
      .ok [.integer 1, .integer 2] ∧
    argsIntoStack (E := ValueError) (fun i : Int => .ok (.integer i)) [1, 2] [] =
      .ok [.integer 1, .integer 2] ∧
    argsCount (H := Int) [1, 2] = 2 :=
  have h := args_pack_order_and_count (E := ValueError)
    (fun i : Int => .ok (.integer i)) (fun i => .integer i) (fun _ => rfl) [1, 2]
    (by decide) []
  ⟨h.2.1, h.2.2.2, h.1⟩

/-- C10 witness: concrete static and cell-backed strings. -/
theorem mutable_text_loans_witness :
    mutStrUnsafeFromValue (.staticString "a") =
      .error (.expectedType "String" .staticString) ∧
    mutStringUnsafeFromValue (.string (SharedCell.new "b")) =
      .ok ("b", ⟨"b", 0, true⟩) :=
  have h := mutable_text_loans "a" (SharedCell.new "b") rfl rfl
  ⟨h.1, h.2.2.2.1⟩

end Rune
